import Mathlib

/-!
Verification development for the drive-collection backup subsystem of the
corso-serverless repository.  The definitions below are shallow embeddings of
the Go source files:

  src/internal/m365/collection/drive/collection.go
  src/internal/m365/collection/drive/permission.go
  src/internal/m365/collection/drive/metadata/metadata.go
  src/internal/m365/collection/drive/metadata/consts.go
  src/internal/connector/exchange/data_collections.go

Go maps over item IDs are modelled as association lists keyed by ID (insertion
ordered); external effects (network calls, channel sends, status callbacks) are
modelled by explicit traces; outcomes of the external collaborators (graph API,
url cache, fault bus) are supplied by environment records so that each code
path of the source is represented.
-/

namespace Corso

/-- data.CollectionState: the lifecycle state of a collection between two
backup runs. -/
inductive CollectionState
  | New
  | NotMoved
  | Moved
  | Deleted
deriving DecidableEq, Repr

/-- Modelled from the spec: `data.StateOf` lives in package internal/data,
which is not under src/ (collection.go only calls it).  The spec gives the
table: currentPath nil yields Deleted; previousPath nil with currentPath set
yields New; both set and equal yields NotMoved; both set and unequal yields
Moved.  Paths are modelled as strings; nil paths as `none`. -/
def StateOf (prev curr : Option String) : CollectionState :=
  match curr with
  | none => CollectionState.Deleted
  | some c =>
    match prev with
    | none => CollectionState.New
    | some p => if p = c then CollectionState.NotMoved else CollectionState.Moved

/-- custom.DriveItem, restricted to the fields collection.go reads: the M365
ID, whether GetFile() is non-nil (file vs folder), and GetSize(). -/
structure DriveItem where
  id : String
  isFile : Bool
  size : Int
deriving DecidableEq, Repr

/-- drive.Collection, restricted to the fields the claims are about.  The
data channel, status updater and counters are modelled in the stream output
rather than stored. -/
structure Collection where
  folderPath : Option String
  prevPath : Option String
  driveItems : List DriveItem
  state : CollectionState
deriving DecidableEq, Repr

/-- newColl: builds a collection with an empty item map and
state := data.StateOf(prevPath, currPath). -/
def newColl (currPath prevPath : Option String) : Collection :=
  { folderPath := currPath
    prevPath := prevPath
    driveItems := []
    state := StateOf prevPath currPath }

/-- Lookup of an item ID in the driveItems map. -/
def lookupItem (items : List DriveItem) (itemID : String) : Option DriveItem :=
  items.find? (fun i => i.id = itemID)

/-- Collection.Add: stores the item under its ID (overwriting any previous
entry) and returns whether the ID was new. -/
def Collection.Add (c : Collection) (item : DriveItem) : Collection × Bool :=
  let found := (lookupItem c.driveItems item.id).isSome
  let items :=
    if found then
      c.driveItems.map (fun i => if i.id = item.id then item else i)
    else
      c.driveItems ++ [item]
  ({ c with driveItems := items }, !found)

/-- Collection.Remove: deletes the ID from the driveItems map; returns false
without change when the ID is unknown. -/
def Collection.Remove (c : Collection) (itemID : String) : Collection × Bool :=
  if (lookupItem c.driveItems itemID).isSome then
    ({ c with driveItems := c.driveItems.filter (fun i => ¬(i.id = itemID)) }, true)
  else
    (c, false)

/-- Collection.IsEmpty. -/
def Collection.IsEmpty (c : Collection) : Bool :=
  c.driveItems.length = 0

/-- Collection.SetFullPath: mutates the current path and recomputes the state
via data.StateOf. -/
def Collection.SetFullPath (c : Collection) (curPath : Option String) : Collection :=
  { c with folderPath := curPath, state := StateOf c.prevPath curPath }

/-- Collection.State accessor. -/
def Collection.State (c : Collection) : CollectionState :=
  c.state

/-! Streaming (Collection.streamItems, streamDriveItem, reportAsCompleted).

The concurrent fan-out of streamDriveItem over the driveItems map is modelled
sequentially in map order: the claims settled here are about the multiset of
records on the channel, the per-item effect trace, and the aggregate counters,
all of which are order independent in the source (atomics plus a wait-group
join before reportAsCompleted). -/

/-- File-name suffixes from metadata/consts.go. -/
def MetaFileSuffix : String := ".meta"

/-- DirMetaFileSuffix from metadata/consts.go. -/
def DirMetaFileSuffix : String := ".dirmeta"

/-- DataFileSuffix from metadata/consts.go. -/
def DataFileSuffix : String := ".data"

/-- The kinds of data.Item record a collection can put on its channel.
lazyData is data.NewLazyItemWithInfo (file content, name itemID+".data");
fileMeta is data.NewPrefetchedItem for a file (name itemID+".meta");
dirMeta is data.NewPrefetchedItem for a folder (name ".dirmeta");
tombstone is the deleted-item marker of the data package, which carries only
the item ID.  streamItems never constructs a tombstone; the constructor is
present so that claims about tombstones are statable. -/
inductive Record
  | lazyData (itemID : String)
  | fileMeta (itemID : String)
  | dirMeta
  | tombstone (itemID : String)
deriving DecidableEq, Repr

/-- The string name the record carries on the channel, as concatenated in
streamDriveItem. -/
def Record.key : Record → String
  | Record.lazyData i => i ++ DataFileSuffix
  | Record.fileMeta i => i ++ MetaFileSuffix
  | Record.dirMeta => DirMetaFileSuffix
  | Record.tombstone i => i

/-- Whether a record is the data or per-file metadata record of the given
item ID. -/
def Record.isForId (r : Record) (itemID : String) : Bool :=
  match r with
  | Record.lazyData i => i = itemID
  | Record.fileMeta i => i = itemID
  | Record.dirMeta => false
  | Record.tombstone i => i = itemID

/-- Network effects performed while a collection streams.  fetchMeta is the
downloadItemMeta call of streamDriveItem; fetchContent is the
getDriveItemContent call captured in the lazyItemGetter closure. -/
inductive Effect
  | fetchMeta (itemID : String)
  | fetchContent (itemID : String)
deriving DecidableEq, Repr

/-- Whether an effect is a content download. -/
def Effect.isFetchContent : Effect → Bool
  | Effect.fetchContent _ => true
  | Effect.fetchMeta _ => false

/-- Environment for one streaming run: whether path.GetDriveFolderPath
succeeds on the collection folder path, and whether downloadItemMeta succeeds
for a given item ID. -/
structure StreamEnv where
  pathOk : Bool
  metaOk : String → Bool

/-- The counters of driveStats that reach reportAsCompleted. -/
structure DriveStats where
  itemsFound : Nat
  itemsRead : Nat
  dirsFound : Nat
  dirsRead : Nat
  byteCount : Int
deriving DecidableEq, Repr

/-- Zero stats. -/
def DriveStats.zero : DriveStats :=
  { itemsFound := 0, itemsRead := 0, dirsFound := 0, dirsRead := 0, byteCount := 0 }

/-- Pointwise sum of stats, matching the atomic adds of streamDriveItem. -/
def DriveStats.add (a b : DriveStats) : DriveStats :=
  { itemsFound := a.itemsFound + b.itemsFound
    itemsRead := a.itemsRead + b.itemsRead
    dirsFound := a.dirsFound + b.dirsFound
    dirsRead := a.dirsRead + b.dirsRead
    byteCount := a.byteCount + b.byteCount }

/-- The argument of the support.CreateStatus call in reportAsCompleted:
Objects := itemsFound, Successes := itemsRead, Bytes := byteCount. -/
structure Status where
  objects : Nat
  successes : Nat
  bytes : Int
deriving DecidableEq, Repr

/-- Everything one run of streamItems produces: the records sent on the data
channel (in model order), the effect trace, how many times the channel was
closed and the status updater invoked, and the reported status. -/
structure StreamOutput where
  records : List Record
  effects : List Effect
  closes : Nat
  statusCalls : Nat
  status : Status
deriving Repr

/-- streamDriveItem for one item: counts the item as found, fetches its
metadata (on failure the error is recoverable and the item contributes no
records), then for a file sends the lazy data record followed by the
prefetched metadata record, for a folder just the directory metadata record,
and finally counts the item as read and adds its size. -/
def streamDriveItem (env : StreamEnv) (item : DriveItem) :
    List Record × List Effect × DriveStats :=
  let found : DriveStats :=
    if item.isFile then { DriveStats.zero with itemsFound := 1 }
    else { DriveStats.zero with dirsFound := 1 }
  if env.metaOk item.id then
    if item.isFile then
      ([Record.lazyData item.id, Record.fileMeta item.id],
       [Effect.fetchMeta item.id],
       { found with itemsRead := 1, byteCount := item.size })
    else
      ([Record.dirMeta],
       [Effect.fetchMeta item.id],
       { found with dirsRead := 1, byteCount := item.size })
  else
    ([], [Effect.fetchMeta item.id], found)

/-- The loop of streamItems over the driveItems map. -/
def streamLoop (env : StreamEnv) : List DriveItem → List Record × List Effect × DriveStats
  | [] => ([], [], DriveStats.zero)
  | item :: rest =>
    let h := streamDriveItem env item
    let t := streamLoop env rest
    (h.1 ++ t.1, h.2.1 ++ t.2.1, DriveStats.add h.2.2 t.2.2)

/-- Collection.streamItems followed by reportAsCompleted.  When
path.GetDriveFolderPath fails the run reports completion immediately with
zero counts; otherwise every item is streamed, then the channel is closed
once and the status updater called once with (itemsFound, itemsRead,
byteCount). -/
def Collection.streamItems (c : Collection) (env : StreamEnv) : StreamOutput :=
  if env.pathOk then
    let r := streamLoop env c.driveItems
    { records := r.1
      effects := r.2.1
      closes := 1
      statusCalls := 1
      status :=
        { objects := r.2.2.itemsFound
          successes := r.2.2.itemsRead
          bytes := r.2.2.byteCount } }
  else
    { records := []
      effects := []
      closes := 1
      statusCalls := 1
      status := { objects := 0, successes := 0, bytes := 0 } }

/-- State of the single data channel shared by all Items calls on one
collection: how many producer tasks were started and how many times the
channel was closed and the status updater invoked. -/
structure ChannelState where
  producerStarts : Nat
  closes : Nat
  statusCalls : Nat
deriving DecidableEq, Repr

/-- The fresh channel made by newColl. -/
def ChannelState.initial : ChannelState :=
  { producerStarts := 0, closes := 0, statusCalls := 0 }

/-- Collection.Items: unconditionally launches `go oc.streamItems` and
returns the stored channel.  The model records the producer start and the
close and status-updater calls the launched run performs. -/
def Collection.ItemsCall (c : Collection) (env : StreamEnv) (s : ChannelState) :
    ChannelState :=
  let out := c.streamItems env
  { producerStarts := s.producerStarts + 1
    closes := s.closes + out.closes
    statusCalls := s.statusCalls + out.statusCalls }

/-! Content download with url-cache retry (downloadContent, readItemContents)
and the lazy item getter (lazyItemGetter.GetData). -/

/-- Error classes distinguished by downloadContent: unauthorized stands for
graph.IsErrUnauthorizedOrBadToken; notFound for core.ErrNotFound; other for
every remaining error. -/
inductive DlErr
  | unauthorized
  | notFound
  | other
deriving DecidableEq, Repr

/-- The itemProps returned by the url cache. -/
structure UrlProps where
  downloadURL : String
  isDeleted : Bool
deriving DecidableEq, Repr

/-- The external calls downloadContent can make, in order of appearance in
the source: the direct downloadItem attempt, the uc.getItemProperties cache
lookup, the downloadFile on the cached URL, the iaag.GetItem refetch, and the
downloadItem on the refetched item. -/
inductive DlCall
  | downloadDirect
  | cacheLookup
  | downloadCachedUrl
  | getItem
  | downloadRefetched
deriving DecidableEq, Repr

/-- Outcomes of the external collaborators of downloadContent. -/
structure DlEnv where
  direct : Except DlErr String
  ucNil : Bool
  cacheProps : Except DlErr UrlProps
  cachedUrl : Except DlErr String
  getItemResult : Except DlErr DriveItem
  refetched : Except DlErr String

/-- readItemContents: errors on a nil cache, looks the item up in the url
cache, maps a cached tombstone to core.ErrNotFound, and otherwise downloads
from the cached URL. -/
def readItemContents (env : DlEnv) : Except DlErr String × List DlCall :=
  if env.ucNil then
    (Except.error DlErr.other, [])
  else
    match env.cacheProps with
    | Except.error e => (Except.error e, [DlCall.cacheLookup])
    | Except.ok props =>
      if props.isDeleted then
        (Except.error DlErr.notFound, [DlCall.cacheLookup])
      else
        (env.cachedUrl, [DlCall.cacheLookup, DlCall.downloadCachedUrl])

/-- downloadContent: direct attempt first; a non-unauthorized error returns
immediately; on unauthorized, the cached URL is tried via readItemContents;
any failure there counts as a cache miss, after which the item is refetched
through GetItem and downloaded exactly once more. -/
def downloadContent (env : DlEnv) : Except DlErr String × List DlCall :=
  match env.direct with
  | Except.ok c => (Except.ok c, [DlCall.downloadDirect])
  | Except.error e =>
    if e = DlErr.unauthorized then
      let r := readItemContents env
      match r.1 with
      | Except.ok c => (Except.ok c, DlCall.downloadDirect :: r.2)
      | Except.error _ =>
        match env.getItemResult with
        | Except.error e2 =>
          (Except.error e2, DlCall.downloadDirect :: r.2 ++ [DlCall.getItem])
        | Except.ok _ =>
          (env.refetched,
           DlCall.downloadDirect :: r.2 ++ [DlCall.getItem, DlCall.downloadRefetched])
    else
      (Except.error e, [DlCall.downloadDirect])

/-- Count of download attempts in a trace (direct, cached-url, or refetched
downloads, not the metadata-only getItem call). -/
def countDownloads (calls : List DlCall) : Nat :=
  (calls.filter (fun c =>
    c = DlCall.downloadDirect ∨ c = DlCall.downloadCachedUrl ∨ c = DlCall.downloadRefetched)).length

/-- lazyItemGetter: the fields of the closure record that GetData reads. -/
structure LazyItemGetter where
  itemID : String
  suffix : String
deriving DecidableEq, Repr

/-- Environment for one GetData call: outcome of the captured contentGetter
(getDriveItemContent) and of extensions.AddItemExtensions. -/
structure LazyEnv where
  content : Except DlErr String
  extOk : Bool

/-- lazyItemGetter.GetData: invokes the captured contentGetter, then adds
item extensions; either failure is returned to the consumer.  The effect
trace records the single content fetch the call performs. -/
def LazyItemGetter.GetData (lig : LazyItemGetter) (env : LazyEnv) :
    Except DlErr String × List Effect :=
  match env.content with
  | Except.error e => (Except.error e, [Effect.fetchContent lig.itemID])
  | Except.ok c =>
    if env.extOk then (Except.ok c, [Effect.fetchContent lig.itemID])
    else (Except.error DlErr.other, [Effect.fetchContent lig.itemID])

/-! Sharing metadata (metadata/metadata.go) and the permission restorer
(permission.go). -/

/-- metadata.GV2Type, restricted to the constants permission.go compares
against plus a catch-all. -/
inductive GV2Type
  | user
  | group
  | siteGroup
  | siteUser
  | application
deriving DecidableEq, Repr

/-- metadata.Entity. -/
structure Entity where
  id : String
  entityType : GV2Type
deriving DecidableEq, Repr

/-- metadata.LinkShareLink. -/
structure LinkShareLink where
  scope : String
  linkType : String
  webUrl : String
  preventsDownload : Bool
deriving DecidableEq, Repr

/-- metadata.LinkShare; expiration times are modelled as integers. -/
structure LinkShare where
  id : String
  link : LinkShareLink
  roles : List String
  entities : List Entity
  hasPassword : Bool
  expiration : Option Int
deriving DecidableEq, Repr

/-- metadata.LinkShare.Equals: comparison is on the WebURL of the link
alone. -/
def LinkShare.Equals (ls other : LinkShare) : Bool :=
  ls.link.webUrl = other.link.webUrl

/-- metadata.Permission. -/
structure Permission where
  id : String
  roles : List String
  email : String
  entityID : String
  entityType : GV2Type
  expiration : Option Int
deriving DecidableEq, Repr

/-- metadata.SharingMode. -/
inductive SharingMode
  | inherited
  | custom
deriving DecidableEq, Repr

/-- metadata.Metadata. -/
structure Metadata where
  fileName : String
  sharingMode : SharingMode
  permissions : List Permission
  linkShares : List LinkShare
deriving DecidableEq, Repr

/-- Modelled from the spec: `metadata.DiffPermissions` is not under src/
(permission.go only calls it).  The spec describes the restorer as computing
the symmetric difference of permissions between the inherited state and the
item state, so a permission counts as present when an entry with the same
entity and roles exists. -/
def permissionIn (ps : List Permission) (p : Permission) : Bool :=
  ps.any (fun q => q.entityID == p.entityID && q.roles == p.roles)

/-- Modelled from the spec: the added set is the current permissions absent
from the previous state, the removed set the previous permissions absent from
the current state. -/
def DiffPermissions (prev curr : List Permission) : List Permission × List Permission :=
  (curr.filter (fun p => !(permissionIn prev p)),
   prev.filter (fun p => !(permissionIn curr p)))

/-- Modelled from the spec: `metadata.DiffLinkShares` is not under src/; the
same symmetric difference over link shares, membership decided by
LinkShare.Equals, the comparison metadata/metadata.go defines. -/
def DiffLinkShares (prev curr : List LinkShare) : List LinkShare × List LinkShare :=
  (curr.filter (fun l => !(prev.any (fun m => m.Equals l))),
   prev.filter (fun l => !(curr.any (fun m => m.Equals l))))

/-- nonRestorablePermission from permission.go. -/
def nonRestorablePermission : String := ""

/-- The availability caches consulted by the filter functions: whether the
Users and Groups maps are filled, and which IDs resolve. -/
structure AvailEnv where
  cachesFilled : Bool
  userAvailable : String → Bool
  groupAvailable : String → Bool

/-- filterUnavailableEntitiesInPermissions: with unfilled caches the list is
returned unchanged; otherwise user and group permissions whose entity no
longer exists are dropped (and marked non-restorable in the ID map, which the
second component returns). -/
def filterUnavailableEntitiesInPermissions (env : AvailEnv) (perms : List Permission) :
    List Permission × List String :=
  if env.cachesFilled then
    (perms.filter (fun p =>
      match p.entityType with
      | GV2Type.user => env.userAvailable p.entityID
      | GV2Type.group => env.groupAvailable p.entityID
      | _ => true),
     (perms.filter (fun p =>
       match p.entityType with
       | GV2Type.user => !(env.userAvailable p.entityID)
       | GV2Type.group => !(env.groupAvailable p.entityID)
       | _ => false)).map (fun p => p.id))
  else
    (perms, [])

/-- The capability-interface calls UpdatePermissions issues, in trace
order. -/
inductive PermCall
  | del (permissionID : String)
  | post (oldPermissionID : String)
deriving DecidableEq, Repr

/-- Whether a call is a DeleteItemPermission. -/
def PermCall.isDel : PermCall → Bool
  | PermCall.del _ => true
  | PermCall.post _ => false

/-- Whether a call is a PostItemPermissionUpdate. -/
def PermCall.isPost : PermCall → Bool
  | PermCall.del _ => false
  | PermCall.post _ => true

/-- Once a post occurs in the trace, no delete may follow. -/
def delsBeforePosts : List PermCall → Bool
  | [] => true
  | PermCall.del _ :: rest => delsBeforePosts rest
  | PermCall.post _ :: rest => rest.all PermCall.isPost

/-- Outcome of one PostItemPermissionUpdate call. -/
inductive PostOutcome
  | ok (newID : String)
  | usersCannotBeResolved
  | failed
deriving DecidableEq, Repr

/-- Outcomes of the graph calls UpdatePermissions makes, plus whether the
fault bus is fail-fast (so that a recoverable error sets el.Failure and
breaks the add loop). -/
structure PermEnv where
  deleteOk : String → Bool
  postOutcome : String → PostOutcome
  failFast : Bool

/-- Lookup in the oldPermIDToNewID map. -/
def lookupAssoc (m : List (String × String)) (k : String) : Option String :=
  (m.find? (fun kv => kv.1 = k)).map (fun kv => kv.2)

/-- Store into the oldPermIDToNewID map. -/
def storeAssoc (m : List (String × String)) (k v : String) : List (String × String) :=
  if (m.find? (fun kv => kv.1 = k)).isSome then
    m.map (fun kv => if kv.1 = k then (kv.1, v) else kv)
  else
    m ++ [(k, v)]

/-- The first loop of UpdatePermissions: every removed permission whose
restored ID is known and restorable gets a DeleteItemPermission call; an
unknown ID records a recoverable error and continues; a failed delete aborts
the whole function.  Returns (calls, aborted, recoverableRecorded). -/
def removeLoop (env : PermEnv) (idMap : List (String × String)) :
    List Permission → List PermCall × Bool × Bool
  | [] => ([], false, false)
  | p :: rest =>
    match lookupAssoc idMap p.id with
    | none =>
      let r := removeLoop env idMap rest
      (r.1, r.2.1, true)
    | some pid =>
      if pid = nonRestorablePermission then
        removeLoop env idMap rest
      else if env.deleteOk pid then
        let r := removeLoop env idMap rest
        (PermCall.del pid :: r.1, r.2.1, r.2.2)
      else
        ([PermCall.del pid], true, false)

/-- The second loop of UpdatePermissions: skips permissions with no non-owner
roles or with a site-group entity, issues PostItemPermissionUpdate for the
rest, records unresolvable users as non-restorable, and breaks when the local
fault bus has failed. -/
def addLoop (env : PermEnv) : List (String × String) → Bool → List Permission →
    List PermCall × List (String × String)
  | idMap, _, [] => ([], idMap)
  | idMap, elFailed, p :: rest =>
    if elFailed then
      ([], idMap)
    else
      let roles := p.roles.filter (fun r => ¬(r = "owner"))
      if roles.length = 0 ∨ p.entityType = GV2Type.siteGroup then
        addLoop env idMap elFailed rest
      else
        match env.postOutcome p.id with
        | PostOutcome.usersCannotBeResolved =>
          let r := addLoop env (storeAssoc idMap p.id nonRestorablePermission) elFailed rest
          (PermCall.post p.id :: r.1, r.2)
        | PostOutcome.failed =>
          let r := addLoop env idMap env.failFast rest
          (PermCall.post p.id :: r.1, r.2)
        | PostOutcome.ok newID =>
          let r := addLoop env (storeAssoc idMap p.id newID) elFailed rest
          (PermCall.post p.id :: r.1, r.2)

/-- UpdatePermissions: the remove loop runs first; if any delete call failed
the function returns there; otherwise the add loop runs over the added set.
Returns the capability-call trace and the final ID map. -/
def UpdatePermissions (env : PermEnv) (idMap : List (String × String))
    (permAdded permRemoved : List Permission) :
    List PermCall × List (String × String) :=
  let r := removeLoop env idMap permRemoved
  if r.2.1 then
    (r.1, idMap)
  else
    let a := addLoop env idMap (r.2.2 && env.failFast) permAdded
    (r.1 ++ a.1, a.2)

/-- Outcomes of the collaborators of RestorePermissions: the result of
computePreviousLinkShares (none models the error case), the result of
computePreviousMetadata (none models the error case, which returns early),
the didReset flag UpdateLinkShares returns, and the availability caches. -/
structure RestoreEnv where
  prevShares : Option (List LinkShare)
  prevMeta : Option Metadata
  didReset : Bool
  avail : AvailEnv

/-- RestorePermissions, observed at the arguments (permAdded, permRemoved) it
passes to UpdatePermissions; none when UpdatePermissions is never reached
(inherited sharing mode, or computePreviousMetadata failed).  When the
link-share restore reset inherited permissions (didReset), the computed and
filtered diff is discarded: every current permission is treated as added and
nothing is removed. -/
def RestorePermissionsArgs (env : RestoreEnv) (current : Metadata) :
    Option (List Permission × List Permission) :=
  if current.sharingMode = SharingMode.inherited then
    none
  else
    let didReset :=
      match env.prevShares with
      | some _ => env.didReset
      | none => false
    match env.prevMeta with
    | none => none
    | some previous =>
      let diff := DiffPermissions previous.permissions current.permissions
      let permAdded := (filterUnavailableEntitiesInPermissions env.avail diff.1).1
      let permRemoved := diff.2
      if didReset then
        some (current.permissions, [])
      else
        some (permAdded, permRemoved)

/-! Previous-backup metadata merging (exchange/data_collections.go,
parseMetadataCollections). -/

/-- Modelled from the spec: graph.PreviousPathFileName, the name of the JSON
file mapping container ID to path (the graph package is not under src/). -/
def PreviousPathFileName : String := "previouspath"

/-- Modelled from the spec: graph.DeltaURLsFileName, the name of the JSON
file mapping container ID to delta token. -/
def DeltaURLsFileName : String := "delta"

/-- The exchange categories parseMetadataCollections initializes. -/
inductive ExCategory
  | contacts
  | email
  | events
deriving DecidableEq, Repr

/-- DeltaPath: delta token and path for one container. -/
structure DeltaPath where
  delta : String
  path : String
deriving DecidableEq, Repr

/-- DeltaPaths: container ID to DeltaPath, as an association list. -/
abbrev DeltaPaths := List (String × DeltaPath)

/-- DeltaPaths.AddDelta: update or insert the delta token of a container. -/
def addDelta (dps : DeltaPaths) (k d : String) : DeltaPaths :=
  if dps.any (fun kv => kv.1 = k) then
    dps.map (fun kv => if kv.1 = k then (kv.1, { kv.2 with delta := d }) else kv)
  else
    dps ++ [(k, { delta := d, path := "" })]

/-- DeltaPaths.AddPath: update or insert the path of a container. -/
def addPath (dps : DeltaPaths) (k p : String) : DeltaPaths :=
  if dps.any (fun kv => kv.1 = k) then
    dps.map (fun kv => if kv.1 = k then (kv.1, { kv.2 with path := p }) else kv)
  else
    dps ++ [(k, { delta := "", path := p })]

/-- CatDeltaPaths with the three categories the function initializes. -/
structure CatDeltaPaths where
  contacts : DeltaPaths
  email : DeltaPaths
  events : DeltaPaths
deriving DecidableEq, Repr

/-- Category projection of CatDeltaPaths. -/
def CatDeltaPaths.get (cdp : CatDeltaPaths) : ExCategory → DeltaPaths
  | ExCategory.contacts => cdp.contacts
  | ExCategory.email => cdp.email
  | ExCategory.events => cdp.events

/-- Category update of CatDeltaPaths. -/
def CatDeltaPaths.set (cdp : CatDeltaPaths) (cat : ExCategory) (dps : DeltaPaths) :
    CatDeltaPaths :=
  match cat with
  | ExCategory.contacts => { cdp with contacts := dps }
  | ExCategory.email => { cdp with email := dps }
  | ExCategory.events => { cdp with events := dps }

/-- The empty CatDeltaPaths the function starts from (and returns when item
reads failed). -/
def emptyCDP : CatDeltaPaths :=
  { contacts := [], email := [], events := [] }

/-- The found tracker: which (category, "path"/"delta") files were already
loaded. -/
abbrev FoundState := List (ExCategory × String)

/-- Membership in the found tracker. -/
def foundHas (found : FoundState) (cat : ExCategory) (tag : String) : Bool :=
  found.any (fun kv => kv.1 == cat && kv.2 == tag)

/-- One metadata item as delivered by a metadata collection stream: its name
(UUID) and its JSON payload, none when decoding fails. -/
structure MetaItem where
  uuid : String
  decoded : Option (List (String × String))
deriving DecidableEq, Repr

/-- One metadata restore collection: its category, the items its stream
delivers, and whether the stream records a read failure on the fault bus
after delivering them. -/
structure MetaColl where
  category : ExCategory
  items : List MetaItem
  streamFails : Bool
deriving DecidableEq, Repr

/-- Handling of one received metadata item: a decode failure is an error
return; a previous-path or delta file merges its entries into the category
maps unless a second copy of that file was already seen (an error); other
names are ignored. -/
def processItem (cat : ExCategory) (st : CatDeltaPaths × FoundState) (item : MetaItem) :
    Except Unit (CatDeltaPaths × FoundState) :=
  match item.decoded with
  | none => Except.error ()
  | some m =>
    if item.uuid = PreviousPathFileName then
      if foundHas st.2 cat "path" then Except.error ()
      else
        Except.ok
          (st.1.set cat (m.foldl (fun dps kv => addPath dps kv.1 kv.2) (st.1.get cat)),
           (cat, "path") :: st.2)
    else if item.uuid = DeltaURLsFileName then
      if foundHas st.2 cat "delta" then Except.error ()
      else
        Except.ok
          (st.1.set cat (m.foldl (fun dps kv => addDelta dps kv.1 kv.2) (st.1.get cat)),
           (cat, "delta") :: st.2)
    else
      Except.ok st

/-- The receive loop over one collection. -/
def processItems (cat : ExCategory) (st : CatDeltaPaths × FoundState) :
    List MetaItem → Except Unit (CatDeltaPaths × FoundState)
  | [] => Except.ok st
  | i :: rest =>
    match processItem cat st i with
    | Except.error e => Except.error e
    | Except.ok st2 => processItems cat st2 rest

/-- The loop over all metadata collections; a stream failure on the fault bus
stops further processing and is reported in the Boolean component. -/
def processColls (st : CatDeltaPaths × FoundState) :
    List MetaColl → Except Unit (CatDeltaPaths × Bool)
  | [] => Except.ok (st.1, false)
  | c :: rest =>
    match processItems c.category st c.items with
    | Except.error e => Except.error e
    | Except.ok st2 =>
      if c.streamFails then Except.ok (st2.1, true)
      else processColls st2 rest

/-- The final cleanup: entries holding a delta but no path are considered
incomplete and removed from the map. -/
def cleanupDeltaPaths (dps : DeltaPaths) : DeltaPaths :=
  dps.filter (fun kv => ¬(kv.2.path.length = 0))

/-- Cleanup applied to every category. -/
def cleanupCDP (cdp : CatDeltaPaths) : CatDeltaPaths :=
  { contacts := cleanupDeltaPaths cdp.contacts
    email := cleanupDeltaPaths cdp.email
    events := cleanupDeltaPaths cdp.events }

/-- Result of parseMetadataCollections: failed models the (nil, false, err)
returns; ok carries the CatDeltaPaths and canUsePreviousBackup. -/
inductive MetaParseResult
  | failed
  | ok (cdp : CatDeltaPaths) (canUsePreviousBackup : Bool)
deriving DecidableEq, Repr

/-- The canUsePreviousBackup value of every return statement of the source
function (false accompanies each error return). -/
def MetaParseResult.canUse : MetaParseResult → Bool
  | MetaParseResult.failed => false
  | MetaParseResult.ok _ b => b

/-- parseMetadataCollections: decode failures and duplicate metadata files
yield an error with canUsePreviousBackup = false; a stream read failure
yields fresh empty maps with canUsePreviousBackup = false; otherwise
incomplete entries are cleaned up and canUsePreviousBackup = true. -/
def parseMetadataCollections (colls : List MetaColl) : MetaParseResult :=
  match processColls (emptyCDP, []) colls with
  | Except.error _ => MetaParseResult.failed
  | Except.ok (_, true) => MetaParseResult.ok emptyCDP false
  | Except.ok (cdp, false) => MetaParseResult.ok (cleanupCDP cdp) true

/-! Concrete instances used by counterexamples and witnesses. -/

/-- A streaming environment in which every external call succeeds. -/
def envAllOk : StreamEnv :=
  { pathOk := true, metaOk := fun _ => true }

/-- Number of file items in a driveItems map. -/
def countFiles : List DriveItem → Nat
  | [] => 0
  | i :: rest => (if i.isFile then 1 else 0) + countFiles rest

/-- Number of folder items in a driveItems map. -/
def countDirs : List DriveItem → Nat
  | [] => 0
  | i :: rest => (if i.isFile then 0 else 1) + countDirs rest

/-- A collection holding exactly one added file item and no removed items. -/
def collOneFile : Collection :=
  ((newColl (some "root:") none).Add { id := "f1", isFile := true, size := 4 }).1

/-- A collection in which one item was added and then removed in the same
run. -/
def collAddRemove : Collection :=
  ((((newColl (some "root:") none).Add
      { id := "x", isFile := true, size := 1 }).1).Remove "x").1

/-- A download environment with an expired direct URL and a stale cached URL:
the direct attempt and the cached-url attempt both come back unauthorized,
the refetch succeeds. -/
def dlEnvStale : DlEnv :=
  { direct := Except.error DlErr.unauthorized
    ucNil := false
    cacheProps := Except.ok { downloadURL := "u", isDeleted := false }
    cachedUrl := Except.error DlErr.unauthorized
    getItemResult := Except.ok { id := "x", isFile := true, size := 1 }
    refetched := Except.ok "content" }

/-- A metadata collection whose email delta file holds a token for a
container that has no path entry. -/
def collDeltaOnly : MetaColl :=
  { category := ExCategory.email
    items := [{ uuid := DeltaURLsFileName, decoded := some [("k", "d")] }]
    streamFails := false }

/-- A restore environment in which the link-share restore reports that it
reset inherited permissions. -/
def restoreEnvReset : RestoreEnv :=
  { prevShares := some []
    prevMeta := some
      { fileName := "parent"
        sharingMode := SharingMode.custom
        permissions := []
        linkShares := [] }
    didReset := true
    avail :=
      { cachesFilled := false
        userAvailable := fun _ => false
        groupAvailable := fun _ => false } }

/-- Item metadata with custom sharing and one current permission. -/
def metaCustom : Metadata :=
  { fileName := "f"
    sharingMode := SharingMode.custom
    permissions :=
      [{ id := "p1", roles := ["write"], email := "", entityID := "A"
         entityType := GV2Type.user, expiration := none }]
    linkShares := [] }

/-! Theorems. -/

/-- Both branches of streamItems end in reportAsCompleted, which closes the
channel once and invokes the status updater once. -/
theorem streamItems_report_once (c : Collection) (env : StreamEnv) :
    (c.streamItems env).closes = 1 ∧ (c.streamItems env).statusCalls = 1 := by
  by_cases h : env.pathOk <;> simp [Collection.streamItems, h]

/-- In an error-free run, the streaming loop emits two records per file and
one per folder, and counts every file as found and read. -/
theorem streamLoop_counts (env : StreamEnv) (items : List DriveItem)
    (h : ∀ i ∈ items, env.metaOk i.id = true) :
    (streamLoop env items).1.length = 2 * countFiles items + countDirs items ∧
    (streamLoop env items).2.2.itemsFound = countFiles items ∧
    (streamLoop env items).2.2.itemsRead = countFiles items := by
  induction items with
  | nil => simp [streamLoop, countFiles, countDirs, DriveStats.zero]
  | cons item rest ih =>
    have hm : env.metaOk item.id = true := h item (by simp)
    obtain ⟨ih1, ih2, ih3⟩ := ih (fun i hi => h i (List.mem_cons_of_mem _ hi))
    by_cases hf : item.isFile = true
    · refine ⟨?_, ?_, ?_⟩ <;>
        (simp [streamLoop, streamDriveItem, hm, hf, DriveStats.add, DriveStats.zero,
          countFiles, countDirs, ih1, ih2, ih3];
         try omega)
    · refine ⟨?_, ?_, ?_⟩ <;>
        (simp [streamLoop, streamDriveItem, hm, hf, DriveStats.add, DriveStats.zero,
          countFiles, countDirs, ih1, ih2, ih3];
         try omega)

/-- C10: link-share equality used when diffing link shares is determined
solely by the WebURL of the link: Equals holds exactly when the WebURL
strings are equal, so roles, entities, expiration or the password flag never
distinguish two link shares. -/
theorem c10_linkshare_equals_weburl (a b : LinkShare) :
    a.Equals b = true ↔ a.link.webUrl = b.link.webUrl := by
  simp [LinkShare.Equals]

/-- C3: State is the pure function data.StateOf of (previousPath,
currentPath), with the table nil currentPath to Deleted, nil previousPath to
New, equal paths to NotMoved, unequal paths to Moved; newColl computes the
state from that table and SetFullPath recomputes it for the mutated path. -/
theorem c3_state_table :
    (∀ prev, StateOf prev none = CollectionState.Deleted) ∧
    (∀ c, StateOf none (some c) = CollectionState.New) ∧
    (∀ p, StateOf (some p) (some p) = CollectionState.NotMoved) ∧
    (∀ p c, p ≠ c → StateOf (some p) (some c) = CollectionState.Moved) ∧
    (∀ currPath prevPath, (newColl currPath prevPath).State = StateOf prevPath currPath) ∧
    (∀ coll : Collection, ∀ newPath,
      (coll.SetFullPath newPath).State = StateOf coll.prevPath newPath) := by
  refine ⟨?_, ?_, ?_, ?_, ?_, ?_⟩
  · intro prev; cases prev <;> rfl
  · intro c; rfl
  · intro p; simp [StateOf]
  · intro p c h; simp [StateOf, h]
  · intro currPath prevPath; rfl
  · intro coll newPath; rfl

/-- Witness for C3: two distinct concrete paths yield the Moved state. -/
theorem c3_state_table_witness :
    StateOf (some "drives/d/root:/Docs/Old") (some "drives/d/root:/Docs/New") =
      CollectionState.Moved :=
  c3_state_table.2.2.2.1 "drives/d/root:/Docs/Old" "drives/d/root:/Docs/New" (by decide)

/-- C2 counterexample: on a concrete one-file collection, two Items calls
start two producer tasks and close the shared channel twice, contradicting
the claim that the producer starts only on the first call and the channel is
closed exactly once. -/
theorem c2_counterexample :
    ((collOneFile.ItemsCall envAllOk
        (collOneFile.ItemsCall envAllOk ChannelState.initial)).producerStarts = 2 ∧
      ¬((collOneFile.ItemsCall envAllOk
        (collOneFile.ItemsCall envAllOk ChannelState.initial)).producerStarts = 1)) ∧
    ((collOneFile.ItemsCall envAllOk
        (collOneFile.ItemsCall envAllOk ChannelState.initial)).closes = 2 ∧
      ¬((collOneFile.ItemsCall envAllOk
        (collOneFile.ItemsCall envAllOk ChannelState.initial)).closes = 1)) := by
  refine ⟨⟨?_, ?_⟩, ⟨?_, ?_⟩⟩ <;> decide

/-- C2 amended: Items has no one-shot guard: every call starts one more
producer task over the same stored channel, and each completed producer run
closes that channel and fires the status callback once more. -/
theorem c2_items_restarts (c : Collection) (env : StreamEnv) (s : ChannelState) :
    (c.ItemsCall env s).producerStarts = s.producerStarts + 1 ∧
    (c.ItemsCall env s).closes = s.closes + 1 ∧
    (c.ItemsCall env s).statusCalls = s.statusCalls + 1 := by
  have h := streamItems_report_once c env
  simp [Collection.ItemsCall, h.1, h.2]

/-- C1 counterexample: the concrete collection with one added file item and
no removed items (N = 1, M = 0) streams two records (the lazy data record and
the metadata record), not N + M = 1, in an error-free run. -/
theorem c1_counterexample :
    (collOneFile.streamItems envAllOk).records.length = 2 ∧
    ¬((collOneFile.streamItems envAllOk).records.length = 1) := by
  refine ⟨?_, ?_⟩ <;> decide

/-- C1 amended: removed items never reach the channel (Remove deletes them
from the map), and every file item yields two records (content plus
metadata) while every folder yields one; in an error-free run the channel
closes after exactly 2 F + D records for F files and D folders, the status
callback fires exactly once, and it reports objectsAttempted = F with
successes = F. -/
theorem c1_stream_counts (c : Collection) (env : StreamEnv)
    (hp : env.pathOk = true)
    (hm : ∀ i ∈ c.driveItems, env.metaOk i.id = true) :
    (c.streamItems env).records.length =
        2 * countFiles c.driveItems + countDirs c.driveItems ∧
    (c.streamItems env).statusCalls = 1 ∧
    (c.streamItems env).closes = 1 ∧
    (c.streamItems env).status.objects = countFiles c.driveItems ∧
    (c.streamItems env).status.successes = countFiles c.driveItems ∧
    (c.streamItems env).status.successes ≤ countFiles c.driveItems := by
  obtain ⟨h1, h2, h3⟩ := streamLoop_counts env c.driveItems hm
  simp [Collection.streamItems, hp, h1, h2, h3]

/-- Witness for C1 amended, on the one-file collection. -/
theorem c1_stream_counts_witness :
    (collOneFile.streamItems envAllOk).records.length =
        2 * countFiles collOneFile.driveItems + countDirs collOneFile.driveItems ∧
    (collOneFile.streamItems envAllOk).statusCalls = 1 ∧
    (collOneFile.streamItems envAllOk).closes = 1 ∧
    (collOneFile.streamItems envAllOk).status.objects = countFiles collOneFile.driveItems ∧
    (collOneFile.streamItems envAllOk).status.successes = countFiles collOneFile.driveItems ∧
    (collOneFile.streamItems envAllOk).status.successes ≤ countFiles collOneFile.driveItems :=
  c1_stream_counts collOneFile envAllOk (by rfl) (by decide)

/-- After Remove, no entry with the removed ID is left in the map. -/
theorem remove_no_id (c : Collection) (itemID : String) :
    ∀ i ∈ ((c.Remove itemID).1).driveItems, ¬(i.id = itemID) := by
  intro i hi
  cases hl : lookupItem c.driveItems itemID with
  | some v =>
    simp [Collection.Remove, hl] at hi
    exact hi.2
  | none =>
    simp [Collection.Remove, hl] at hi
    have := List.find?_eq_none.mp hl i hi
    simpa using this

/-- Items absent from the map produce no records keyed by their ID. -/
theorem streamLoop_absent (env : StreamEnv) (itemID : String) (items : List DriveItem)
    (h : ∀ i ∈ items, ¬(i.id = itemID)) :
    ∀ r ∈ (streamLoop env items).1, r.isForId itemID = false := by
  induction items with
  | nil => intro r hr; simp [streamLoop] at hr
  | cons item rest ih =>
    intro r hr
    have hid : ¬(item.id = itemID) := h item (by simp)
    have hrest := ih (fun i hi => h i (List.mem_cons_of_mem _ hi))
    simp only [streamLoop, List.mem_append] at hr
    rcases hr with hr | hr
    · by_cases hm : env.metaOk item.id = true
      · by_cases hf : item.isFile = true
        · simp [streamDriveItem, hm, hf] at hr
          rcases hr with rfl | rfl <;> simp [Record.isForId, hid]
        · simp [streamDriveItem, hm, hf] at hr
          subst hr
          simp [Record.isForId]
      · simp [streamDriveItem, hm] at hr
    · exact hrest r hr

/-- C4 counterexample: on the concrete collection where item x was added and
then removed in the same run, the error-free stream contains no tombstone
record for x — in fact no record at all for x — contradicting the claim that
a tombstone is yielded. -/
theorem c4_counterexample :
    ((collAddRemove.streamItems envAllOk).records.any
        (fun r => r = Record.tombstone "x")) = false ∧
    ((collAddRemove.streamItems envAllOk).records.any
        (fun r => r.isForId "x")) = false := by
  refine ⟨?_, ?_⟩ <;> decide

/-- C4 amended: an item added and then removed in the same run yields no
record of any kind for that ID (Remove deletes it from the map, and the
stream never emits tombstones); Remove of an ID not present in the
collection is a no-op that returns false. -/
theorem c4_add_remove_drops_item (env : StreamEnv) (c : Collection) (item : DriveItem) :
    (∀ r ∈ ((((c.Add item).1).Remove item.id).1.streamItems env).records,
      r.isForId item.id = false) ∧
    (∀ c2 : Collection, ∀ itemID, lookupItem c2.driveItems itemID = none →
      c2.Remove itemID = (c2, false)) := by
  constructor
  · intro r hr
    have habs := remove_no_id ((c.Add item).1) item.id
    by_cases hp : env.pathOk = true
    · simp only [Collection.streamItems, hp, if_true] at hr
      exact streamLoop_absent env item.id _ habs r hr
    · simp [Collection.streamItems, hp] at hr
  · intro c2 itemID h
    simp [Collection.Remove, h]

/-- Witness for C4 amended: removing an unknown ID from an empty collection
returns false and leaves the collection unchanged. -/
theorem c4_add_remove_drops_item_witness :
    (newColl (some "root:") none).Remove "ghost" = ((newColl (some "root:") none), false) :=
  (c4_add_remove_drops_item envAllOk (newColl (some "root:") none)
      { id := "x", isFile := true, size := 1 }).2
    (newColl (some "root:") none) "ghost" (by decide)

/-- The cache-read path never performs the refetched download. -/
theorem readItemContents_no_refetch (env : DlEnv) :
    (readItemContents env).2.count DlCall.downloadRefetched = 0 := by
  unfold readItemContents
  by_cases h : env.ucNil = true
  · simp [h]
  · simp only [h]
    cases env.cacheProps with
    | error e => simp
    | ok props => by_cases hd : props.isDeleted = true <;> simp [hd]

/-- With a non-nil cache, the cache-read trace starts with the cache
lookup. -/
theorem readItemContents_trace (env : DlEnv) (h : env.ucNil = false) :
    ∃ rest, (readItemContents env).2 = DlCall.cacheLookup :: rest := by
  unfold readItemContents
  simp only [h]
  cases env.cacheProps with
  | error e => exact ⟨[], by simp⟩
  | ok props =>
    by_cases hd : props.isDeleted = true
    · exact ⟨[], by simp [hd]⟩
    · exact ⟨[DlCall.downloadCachedUrl], by simp [hd]⟩

/-- C5: downloading item content retries at most once via the url cache:
a non-unauthorized direct failure returns immediately after the single
direct attempt; an unauthorized direct failure consults the url cache first;
when the cache path also fails, the item is refetched and downloaded exactly
once more, ending the trace; and when that retry also fails, its error is
what surfaces to the caller. -/
theorem c5_download_retry_policy (env : DlEnv) :
    (∀ e, env.direct = Except.error e → ¬(e = DlErr.unauthorized) →
      downloadContent env = (Except.error e, [DlCall.downloadDirect])) ∧
    (env.direct = Except.error DlErr.unauthorized → env.ucNil = false →
      ∃ rest, (downloadContent env).2 =
        DlCall.downloadDirect :: DlCall.cacheLookup :: rest) ∧
    (∀ e2, env.direct = Except.error DlErr.unauthorized →
      (readItemContents env).1 = Except.error e2 →
      ∀ it, env.getItemResult = Except.ok it →
        (downloadContent env).2 =
          DlCall.downloadDirect ::
            ((readItemContents env).2 ++ [DlCall.getItem, DlCall.downloadRefetched]) ∧
        (downloadContent env).1 = env.refetched ∧
        (downloadContent env).2.count DlCall.downloadRefetched = 1) ∧
    (∀ e2 e3, env.direct = Except.error DlErr.unauthorized →
      (readItemContents env).1 = Except.error e2 →
      (∀ it, env.getItemResult = Except.ok it →
        env.refetched = Except.error e3 →
        (downloadContent env).1 = Except.error e3)) := by
  refine ⟨?_, ?_, ?_, ?_⟩
  · intro e h1 h2
    simp [downloadContent, h1, h2]
  · intro h1 h2
    obtain ⟨rest, hr⟩ := readItemContents_trace env h2
    simp only [downloadContent, h1]
    cases hrc : (readItemContents env).1 with
    | ok c => exact ⟨rest, by simp [hrc, hr]⟩
    | error e =>
      cases hg : env.getItemResult with
      | error e2 => exact ⟨rest ++ [DlCall.getItem], by simp [hrc, hg, hr]⟩
      | ok it =>
        exact ⟨rest ++ [DlCall.getItem, DlCall.downloadRefetched],
          by simp [hrc, hg, hr]⟩
  · intro e2 h1 hrc it hg
    refine ⟨?_, ?_, ?_⟩
    · simp [downloadContent, h1, hrc, hg]
    · simp [downloadContent, h1, hrc, hg]
    · simp [downloadContent, h1, hrc, hg, readItemContents_no_refetch env]
  · intro e2 e3 h1 hrc it hg h3
    simp [downloadContent, h1, hrc, hg, h3]

/-- Witness for C5, on the stale-cache environment: the direct attempt is
unauthorized, the cached URL is stale, and the refetched download succeeds
after exactly one retry. -/
theorem c5_download_retry_policy_witness :
    (downloadContent dlEnvStale).2 =
        DlCall.downloadDirect ::
          ((readItemContents dlEnvStale).2 ++
            [DlCall.getItem, DlCall.downloadRefetched]) ∧
    (downloadContent dlEnvStale).1 = dlEnvStale.refetched ∧
    (downloadContent dlEnvStale).2.count DlCall.downloadRefetched = 1 :=
  (c5_download_retry_policy dlEnvStale).2.2.1 DlErr.unauthorized rfl rfl
    { id := "x", isFile := true, size := 1 } rfl

/-- The streaming loop performs metadata fetches only: no content download
occurs while the channel is being populated. -/
theorem streamLoop_no_fetchContent (env : StreamEnv) (items : List DriveItem) :
    ((streamLoop env items).2.1.filter Effect.isFetchContent) = [] := by
  induction items with
  | nil => rfl
  | cons item rest ih =>
    by_cases hm : env.metaOk item.id = true
    · by_cases hf : item.isFile = true <;>
        simp [streamLoop, streamDriveItem, hm, hf, Effect.isFetchContent, ih]
    · simp [streamLoop, streamDriveItem, hm, Effect.isFetchContent, ih]

/-- C9: stream population performs no content fetch — the effect trace of a
whole streaming run is free of content downloads — while GetData on a lazy
record invokes the captured content getter exactly once, at invocation
time. -/
theorem c9_lazy_no_fetch_until_getdata :
    (∀ c : Collection, ∀ env : StreamEnv,
      ((c.streamItems env).effects.filter Effect.isFetchContent) = []) ∧
    (∀ lig : LazyItemGetter, ∀ lenv : LazyEnv,
      (lig.GetData lenv).2 = [Effect.fetchContent lig.itemID]) := by
  constructor
  · intro c env
    by_cases hp : env.pathOk = true <;>
      simp [Collection.streamItems, hp, streamLoop_no_fetchContent]
  · intro lig lenv
    cases h : lenv.content with
    | error e => simp [LazyItemGetter.GetData, h]
    | ok c => by_cases he : lenv.extOk = true <;> simp [LazyItemGetter.GetData, h, he]

/-- The remove loop of UpdatePermissions issues deletion calls only. -/
theorem removeLoop_all_del (env : PermEnv) (idMap : List (String × String))
    (ps : List Permission) :
    ((removeLoop env idMap ps).1.all PermCall.isDel) = true := by
  induction ps with
  | nil => rfl
  | cons p rest ih =>
    simp only [removeLoop]
    cases lookupAssoc idMap p.id with
    | none => simpa using ih
    | some pid =>
      by_cases h0 : pid = nonRestorablePermission
      · simpa [h0] using ih
      · by_cases hd : env.deleteOk pid = true
        · simp [h0, hd, PermCall.isDel]
          simpa using ih
        · simp [h0, hd, PermCall.isDel]

/-- The add loop of UpdatePermissions issues permission-update posts only. -/
theorem addLoop_all_post (env : PermEnv) (ps : List Permission) :
    ∀ idMap elFailed, ((addLoop env idMap elFailed ps).1.all PermCall.isPost) = true := by
  induction ps with
  | nil => intro idMap elFailed; rfl
  | cons p rest ih =>
    intro idMap elFailed
    by_cases hf : elFailed = true
    · simp [addLoop, hf]
    · have hf0 : elFailed = false := by
        cases elFailed
        · rfl
        · exact absurd rfl hf
      subst hf0
      simp only [addLoop]
      rw [if_neg (by simp : ¬(false = true))]
      by_cases hs : (p.roles.filter (fun r => ¬(r = "owner"))).length = 0 ∨
          p.entityType = GV2Type.siteGroup
      · rw [if_pos hs]
        exact ih idMap false
      · rw [if_neg hs]
        cases ho : env.postOutcome p.id with
        | usersCannotBeResolved =>
          simp only [ho, List.all_cons, PermCall.isPost, Bool.true_and]
          exact ih (storeAssoc idMap p.id nonRestorablePermission) false
        | failed =>
          simp only [ho, List.all_cons, PermCall.isPost, Bool.true_and]
          exact ih idMap env.failFast
        | ok newID =>
          simp only [ho, List.all_cons, PermCall.isPost, Bool.true_and]
          exact ih (storeAssoc idMap p.id newID) false

/-- An all-post trace satisfies delsBeforePosts. -/
theorem delsBeforePosts_of_all_post (ps : List PermCall)
    (h : ps.all PermCall.isPost = true) : delsBeforePosts ps = true := by
  cases ps with
  | nil => rfl
  | cons c rest =>
    cases c with
    | del pid => simp [PermCall.isPost] at h
    | post pid =>
      simp only [delsBeforePosts]
      simp only [List.all_cons, PermCall.isPost, Bool.true_and] at h
      exact h

/-- Prepending deletion calls preserves delsBeforePosts. -/
theorem delsBeforePosts_append (ds ps : List PermCall)
    (hd : ds.all PermCall.isDel = true) (hp : delsBeforePosts ps = true) :
    delsBeforePosts (ds ++ ps) = true := by
  induction ds with
  | nil => simpa
  | cons c rest ih =>
    cases c with
    | del pid =>
      simp only [List.cons_append, delsBeforePosts]
      simp only [List.all_cons, PermCall.isDel, Bool.true_and] at hd
      exact ih hd
    | post pid => simp [PermCall.isDel] at hd

/-- C7: in every UpdatePermissions call, all DeleteItemPermission calls for
the removed set are issued before any PostItemPermissionUpdate call for the
added set: the capability-call trace never shows a delete after a post. -/
theorem c7_removes_before_adds (env : PermEnv) (idMap : List (String × String))
    (permAdded permRemoved : List Permission) :
    delsBeforePosts (UpdatePermissions env idMap permAdded permRemoved).1 = true := by
  unfold UpdatePermissions
  by_cases ha : (removeLoop env idMap permRemoved).2.1 = true
  · simp only [ha, if_true]
    have hd := removeLoop_all_del env idMap permRemoved
    simpa using delsBeforePosts_append (removeLoop env idMap permRemoved).1 [] hd rfl
  · have ha0 : (removeLoop env idMap permRemoved).2.1 = false :=
      Bool.not_eq_true _ ▸ Bool.of_not_eq_true ha
    simp only [ha0, Bool.false_eq_true, if_false]
    exact delsBeforePosts_append _ _
      (removeLoop_all_del env idMap permRemoved)
      (delsBeforePosts_of_all_post _
        (addLoop_all_post env permAdded idMap
          ((removeLoop env idMap permRemoved).2.2 && env.failFast)))

/-- C8: when restoring link shares reset inherited sharing state, the
subsequent permission update treats every current permission of the item as
newly added and empties the removed set, discarding the diff against the
nearest custom-sharing ancestor. -/
theorem c8_didreset_overrides_diff (env : RestoreEnv) (current : Metadata)
    (h1 : ¬(current.sharingMode = SharingMode.inherited))
    (ls : List LinkShare) (h2 : env.prevShares = some ls)
    (h3 : env.didReset = true)
    (m : Metadata) (h4 : env.prevMeta = some m) :
    RestorePermissionsArgs env current = some (current.permissions, []) := by
  simp [RestorePermissionsArgs, h1, h2, h3, h4]

/-- Witness for C8: a concrete custom-sharing item under a resetting
link-share restore passes all current permissions as added and none as
removed. -/
theorem c8_didreset_overrides_diff_witness :
    RestorePermissionsArgs restoreEnvReset metaCustom = some (metaCustom.permissions, []) :=
  c8_didreset_overrides_diff restoreEnvReset metaCustom (by decide) [] rfl rfl
    { fileName := "parent", sharingMode := SharingMode.custom
      permissions := [], linkShares := [] } rfl

/-- C6 counterexample: a single email metadata collection whose delta file
holds a token for container k that has no path entry parses without error:
the incomplete entry is silently dropped and canUsePreviousBackup is
reported as true, contradicting the claim that such partially-written
metadata forces canUsePreviousBackup = false. -/
theorem c6_counterexample :
    parseMetadataCollections [collDeltaOnly] = MetaParseResult.ok emptyCDP true ∧
    ¬((parseMetadataCollections [collDeltaOnly]).canUse = false) := by
  refine ⟨?_, ?_⟩ <;> decide

/-- C6 amended: a metadata item that fails to decode makes
parseMetadataCollections return an error, whose accompanying
canUsePreviousBackup is false; a stream-read failure recorded on the fault
bus makes it return fresh empty maps with canUsePreviousBackup = false; but
a container entry holding a delta token without a path is merely dropped
from the returned map during cleanup while canUsePreviousBackup stays
true. -/
theorem c6_metadata_fallbacks :
    (∀ cat u rest fails,
      parseMetadataCollections
          [{ category := cat, items := { uuid := u, decoded := none } :: rest,
             streamFails := fails }] =
        MetaParseResult.failed) ∧
    (∀ c : MetaColl, ∀ st, processItems c.category (emptyCDP, []) c.items = Except.ok st →
      c.streamFails = true →
      parseMetadataCollections [c] = MetaParseResult.ok emptyCDP false) ∧
    (∀ colls cdp, processColls (emptyCDP, []) colls = Except.ok (cdp, false) →
      parseMetadataCollections colls = MetaParseResult.ok (cleanupCDP cdp) true ∧
      ∀ cat, ∀ kv ∈ (cleanupCDP cdp).get cat, ¬(kv.2.path = "")) := by
  refine ⟨?_, ?_, ?_⟩
  · intro cat u rest fails
    simp [parseMetadataCollections, processColls, processItems, processItem]
  · intro c st h1 h2
    simp [parseMetadataCollections, processColls, h1, h2]
  · intro colls cdp h
    constructor
    · simp [parseMetadataCollections, h]
    · intro cat kv hkv h0
      have hlen : kv.2.path.length = 0 := by rw [h0]; rfl
      have hmem : kv ∈ cleanupDeltaPaths (cdp.get cat) := by
        cases cat <;> simpa [cleanupCDP, CatDeltaPaths.get] using hkv
      have := (List.mem_filter.mp hmem).2
      simp [hlen] at this

/-- Witness for C6 amended, on the empty metadata list: no collections parse
to empty maps with canUsePreviousBackup = true, and every surviving entry
keeps a non-empty path. -/
theorem c6_metadata_fallbacks_witness :
    parseMetadataCollections [] = MetaParseResult.ok (cleanupCDP emptyCDP) true :=
  (c6_metadata_fallbacks.2.2 [] emptyCDP rfl).1

end Corso
